import Mathlib

/-!
Verification of the chainerror library (src/src/lib.rs): a shallow embedding
of the error-chain data model and its traversal, formatting and downcast
operations, with theorems checking the specified behaviour.

Modelling conventions:
* Rust `TypeId` values are modelled by the inductive `Ty`; the concrete type
  `Error<T>` of the library is `Ty.err t` when the kind type `T` is `t`, so
  exact-type downcasts compare `Ty` values for equality.
* A value of a kind type `T : Display + Debug` is modelled by `Kind`: its
  type id plus its Display and Debug renderings.  All kind types produced by
  the crate render identically in alternate and non-alternate mode, so one
  string per formatting trait suffices.
* A node of the type-erased cause chain (`dyn StdError`) is `ErrNode`:
  either a link `Error<T>` (constructor `chain`, mirroring the struct fields
  `occurrence`, `kind`, `error_cause`) or a foreign error (constructor
  `foreign`, carrying its type id, native Display and Debug renderings and
  optional source).
-/

namespace Chainerror

/-- Model of `std::any::TypeId`: base types plus the `Error<T>` constructor. -/
inductive Ty where
  | base : Nat → Ty
  | err : Ty → Ty
deriving DecidableEq, Repr

/-- The type id of Rust `String` (special-cased by the Debug impl). -/
def stringTy : Ty := .base 0

/-- The type id of Rust `&str` (special-cased by the Debug impl). -/
def strTy : Ty := .base 1

/-- A kind value: its type id and its Display and Debug renderings. -/
structure Kind where
  ty : Ty
  display : String
  debugStr : String
deriving DecidableEq, Repr

/-- A node of the type-erased cause chain (`dyn StdError + 'static`). -/
inductive ErrNode where
  | chain (occurrence : Option String) (kind : Kind) (error_cause : Option ErrNode)
  | foreign (tid : Nat) (display : String) (debugStr : String) (src : Option ErrNode)

/-- `StdError::source` of a node: the stored cause, if any. -/
def ErrNode.source : ErrNode → Option ErrNode
  | .chain _ _ c => c
  | .foreign _ _ _ s => s

/-- The dynamic (concrete) type of a node: a link `Error<T>` has type
`Ty.err t`; a foreign error has its own base type. -/
def ErrNode.dynTy : ErrNode → Ty
  | .chain _ k _ => .err k.ty
  | .foreign t _ _ _ => .base t

/-- The kind stored in a node, when the node is a link. -/
def ErrNode.kindOf : ErrNode → Option Kind
  | .chain _ k _ => some k
  | .foreign _ _ _ _ => none

/-- The list of nodes yielded by `ErrorIter` starting at a node: the node
itself, then its cause, then the cause of the cause, and so on. -/
def ErrNode.iterList : ErrNode → List ErrNode
  | .chain occ k none => [.chain occ k none]
  | .chain occ k (some c) => .chain occ k (some c) :: c.iterList
  | .foreign t d b none => [.foreign t d b none]
  | .foreign t d b (some s) => .foreign t d b (some s) :: s.iterList

/-! Formatting.  `rustDisplay alt n` models `format!("{}", n)` (`alt = false`)
and `format!("{:#}", n)` (`alt = true`); `rustDebug` models `{:?}` and
`{:#?}`.  For foreign errors the native renderings are the stored strings in
both modes.  The whitespace layout of `Formatter::debug_struct` is abstracted
to a single-line record rendering; the claims concern the record structure,
not the pretty-printer indentation. -/

/-- Debug rendering of a Rust `Option` given the Debug rendering of the
content. -/
def optionDebug (f : α → String) : Option α → String
  | some a => "Some(" ++ f a ++ ")"
  | none => "None"

/-- Debug rendering of a Rust `String` value (escaping abstracted away). -/
def stringDebug (s : String) : String := "\x22" ++ s ++ "\x22"

/-- Abstraction of `std::any::type_name`. -/
def Ty.typeName : Ty → String
  | .base n => "type" ++ toString n
  | .err t => "chainerror::Error<" ++ Ty.typeName t ++ ">"

/-- A `debug_struct` record: its name and its labelled fields in order. -/
structure DebugStructRec where
  name : String
  fields : List (String × String)
deriving DecidableEq, Repr

/-- Single-line rendering of a `debug_struct` record. -/
def renderRecord (r : DebugStructRec) : String :=
  r.name ++ " \x7b " ++
    String.intercalate ", " (r.fields.map (fun p => p.1 ++ ": " ++ p.2)) ++
    " \x7d"

/-- `{:#?}` of a node: for a link, the rendered `debug_struct` record of
`impl Debug for Error<T>` (alternate branch); for a foreign error, its native
Debug rendering. -/
def ErrNode.rustDebugAlt : ErrNode → String
  | .chain occ k none =>
      renderRecord
        ⟨"Error<" ++ k.ty.typeName ++ ">",
          [("occurrence", optionDebug stringDebug occ),
           ("kind", k.debugStr),
           ("source", "None")]⟩
  | .chain occ k (some e) =>
      renderRecord
        ⟨"Error<" ++ k.ty.typeName ++ ">",
          [("occurrence", optionDebug stringDebug occ),
           ("kind", k.debugStr),
           ("source", "Some(" ++ ErrNode.rustDebugAlt e ++ ")")]⟩
  | .foreign _ _ b _ => b

/-- The `debug_struct` record built by the alternate branch of
`impl Debug for Error<T>`: name `Error<type_name::<T>()>` and the fields
`occurrence`, `kind` and `source` in that order; the source field is the
Debug rendering of the direct cause, one delegation only. -/
def ErrNode.debugAltRec : ErrNode → Option (DebugStructRec)
  | .chain occ k c =>
      some ⟨"Error<" ++ k.ty.typeName ++ ">",
        [("occurrence", optionDebug stringDebug occ),
         ("kind", k.debugStr),
         ("source", optionDebug ErrNode.rustDebugAlt c)]⟩
  | .foreign _ _ _ _ => none

/-- `{:?}` of a node: for a link, the non-alternate branch of
`impl Debug for Error<T>`: the occurrence tag followed by `": "` if present,
then the kind via Display if its type is exactly `String` or `&str` and via
Debug otherwise, then `"\nCaused by:\n"` and the `{:?}` rendering of the
cause when one exists; for a foreign error, its native Debug rendering. -/
def ErrNode.rustDebug : ErrNode → String
  | .chain occ k c =>
      (match occ with
        | some o => o ++ ": "
        | none => "") ++
      (if k.ty = stringTy ∨ k.ty = strTy then k.display else k.debugStr) ++
      (match c with
        | some e => "\nCaused by:\n" ++ ErrNode.rustDebug e
        | none => "")
  | .foreign _ _ b _ => b

/-- `{}` / `{:#}` of a node (`alt` is the alternate flag): for a link, the
kind via Display, and in alternate mode additionally
`"\nCaused by:\n  "` followed by the `{:#}` rendering of the cause when one
exists (as in `impl Display for Error<T>`); for a foreign error, its native
Display rendering. -/
def ErrNode.rustDisplay : Bool → ErrNode → String
  | alt, .chain _ k c =>
      k.display ++
        (if alt then
          match c with
          | some e => "\nCaused by:\n  " ++ ErrNode.rustDisplay true e
          | none => ""
        else "")
  | _, .foreign _ d _ _ => d

/-- The struct `Error<T>` of the library, with its three fields. -/
structure ErrorS where
  occurrence : Option String
  kind : Kind
  error_cause : Option ErrNode

/-- `Error::new(kind, error_cause, occurrence)`. -/
def ErrorS.new (kind : Kind) (error_cause : Option ErrNode)
    (occurrence : Option String) : ErrorS :=
  ⟨occurrence, kind, error_cause⟩

/-- The view of a link as a node of the type-erased chain (the coercion of
`&Error<T>` to `&dyn StdError`). -/
def ErrorS.toNode (e : ErrorS) : ErrNode :=
  .chain e.occurrence e.kind e.error_cause

/-- `Error::iter()`: the iterator starts at the link itself. -/
def ErrorS.iter (e : ErrorS) : List ErrNode :=
  e.toNode.iterList

/-- `Error::root_cause()`: the last element of `self.iter()`. -/
def ErrorS.root_cause (e : ErrorS) : Option ErrNode :=
  e.iter.getLast?

/-- `<dyn StdError>::downcast_ref::<U>` at type id `U`: succeeds exactly when
the dynamic type of the node is `U`, returning the node (reinterpreted). -/
def downcastRef (U : Ty) (n : ErrNode) : Option ErrNode :=
  if n.dynTy = U then some n else none

/-- `Error::find_cause::<U>()`:
`self.iter().filter_map(downcast_ref::<U>).next()`. -/
def ErrorS.find_cause (e : ErrorS) (U : Ty) : Option ErrNode :=
  e.iter.findSome? (downcastRef U)

/-- `Error::find_chain_cause::<U>()`:
`self.iter().filter_map(downcast_ref::<Error<U>>).next()`. -/
def ErrorS.find_chain_cause (e : ErrorS) (U : Ty) : Option ErrNode :=
  e.iter.findSome? (downcastRef (Ty.err U))

/-- The per-node test of `Error::find_kind_or_cause::<U>()`:
`e.downcast_ref::<Error<U>>().map(|e| e.kind()).or_else(|| e.downcast_ref::<U>())`.
A wrapper match yields the unwrapped kind (`Sum.inl`), a raw match yields the
node itself (`Sum.inr`). -/
def kindOrCauseAt (U : Ty) (n : ErrNode) : Option (Kind ⊕ ErrNode) :=
  (((downcastRef (Ty.err U) n).bind ErrNode.kindOf).map Sum.inl).or
    ((downcastRef U n).map Sum.inr)

/-- `Error::find_kind_or_cause::<U>()`: first per-node hit in chain order. -/
def ErrorS.find_kind_or_cause (e : ErrorS) (U : Ty) : Option (Kind ⊕ ErrNode) :=
  e.iter.findSome? (kindOrCauseAt U)

/-- `ErrorDown::is_chain::<T>` of `impl ErrorDown for Error<U>`:
`TypeId::of::<T>() == TypeId::of::<U>()`. -/
def ErrorS.is_chain (e : ErrorS) (T : Ty) : Bool :=
  decide (T = e.kind.ty)

/-- `ErrorDown::downcast_chain_ref::<T>` of `impl ErrorDown for Error<U>`:
the same link when `is_chain::<T>()` holds, `None` otherwise. -/
def ErrorS.downcast_chain_ref (e : ErrorS) (T : Ty) : Option ErrorS :=
  if e.is_chain T then some e else none

/-- `Context::context(kind)` on `Result<O, E>` (`into` models
`E::into(Box<dyn StdError>)`, `loc` the captured `Location::caller()`). -/
def context {O E : Type} (into : E → ErrNode) (loc : String) (kind : Kind) :
    Except E O → Except ErrorS O
  | .ok t => .ok t
  | .error error_cause =>
      .error (ErrorS.new kind (some (into error_cause)) (some loc))

/-- `Context::map_context(op)` on `Result<O, E>`: the kind is computed by
applying `op` to the error before the error is stored as the cause. -/
def map_context {O E : Type} (into : E → ErrNode) (loc : String)
    (op : E → Kind) : Except E O → Except ErrorS O
  | .ok t => .ok t
  | .error error_cause =>
      .error (ErrorS.new (op error_cause) (some (into error_cause)) (some loc))

/-- A chain of successive `context` attachments over a leaf error: the head
of `ctxs` is the outermost (last attached) location/kind pair.  Each step is
literally one `context` call on a failed result. -/
def attachAll (leaf : ErrNode) : List (String × Kind) → ErrNode
  | [] => leaf
  | (loc, k) :: ctxs =>
      match context (fun n : ErrNode => n) loc k
          (Except.error (attachAll leaf ctxs) : Except ErrNode Empty) with
      | .ok t => t.elim
      | .error e => e.toNode

/-- The links constructed by `attachAll`, outermost first. -/
def attachLinks (leaf : ErrNode) : List (String × Kind) → List ErrNode
  | [] => []
  | (loc, k) :: ctxs => attachAll leaf ((loc, k) :: ctxs) :: attachLinks leaf ctxs

/-! Concrete sample data used in witnesses and examples. -/

/-- A sample base type id `A`. -/
def tyA : Ty := .base 10

/-- A sample base type id `B`. -/
def tyB : Ty := .base 11

/-- A sample kind of type `A`. -/
def kindA : Kind := ⟨tyA, "a display", "a debug"⟩

/-- A second sample kind of type `A` with different payload. -/
def kindA2 : Kind := ⟨tyA, "a2 display", "a2 debug"⟩

/-- A sample kind of type `B`. -/
def kindB : Kind := ⟨tyB, "b display", "b debug"⟩

/-- A sample foreign leaf error (an `io::Error`-like value). -/
def leafN : ErrNode := .foreign 42 "entity not found" "Kind(NotFound)" none

/-- Innermost link of the `A -> B -> A` sample chain (kind type `A`). -/
def innerN : ErrNode := .chain none kindA2 none

/-- Middle link of the sample chain (kind type `B`). -/
def midN : ErrNode := .chain none kindB (some innerN)

/-- Outermost link of the sample chain (kind type `A`). -/
def outerS : ErrorS := ⟨none, kindA, some midN⟩

/-! Helper lemmas. -/

theorem iterList_source_none {n : ErrNode} (h : n.source = none) :
    n.iterList = [n] := by
  cases n with
  | chain occ k c => cases c with
    | none => rfl
    | some c => simp [ErrNode.source] at h
  | foreign t d b s => cases s with
    | none => rfl
    | some s => simp [ErrNode.source] at h

theorem iterList_source_some {n c : ErrNode} (h : n.source = some c) :
    n.iterList = n :: c.iterList := by
  cases n with
  | chain occ k cc => cases cc with
    | none => simp [ErrNode.source] at h
    | some cc =>
        simp only [ErrNode.source, Option.some.injEq] at h
        subst h; rfl
  | foreign t d b s => cases s with
    | none => simp [ErrNode.source] at h
    | some s =>
        simp only [ErrNode.source, Option.some.injEq] at h
        subst h; rfl

theorem iterList_head (n : ErrNode) : n.iterList.head? = some n := by
  cases h : n.source with
  | none => rw [iterList_source_none h]; rfl
  | some c => rw [iterList_source_some h]; rfl

theorem iterList_ne_nil (n : ErrNode) : n.iterList ≠ [] := by
  cases h : n.source with
  | none => rw [iterList_source_none h]; simp
  | some c => rw [iterList_source_some h]; simp

theorem findSome?_eq_some_split {α β : Type} {f : α → Option β}
    {l : List α} {b : β} :
    l.findSome? f = some b ↔
      ∃ pre a post, l = pre ++ a :: post ∧ (∀ x ∈ pre, f x = none) ∧
        f a = some b := by
  induction l with
  | nil =>
      simp only [List.findSome?_nil]
      constructor
      · intro h; cases h
      · rintro ⟨pre, a, post, h, -, -⟩
        exact absurd h (by simp)
  | cons x xs ih =>
      simp only [List.findSome?_cons]
      cases hx : f x with
      | some c =>
          constructor
          · intro h
            refine ⟨[], x, xs, rfl, by simp, ?_⟩
            rw [hx]; exact h
          · rintro ⟨pre, a, post, hl, hpre, ha⟩
            cases pre with
            | nil =>
                simp only [List.nil_append, List.cons.injEq] at hl
                rw [hl.1] at hx; rw [hx] at ha; exact ha
            | cons p ps =>
                simp only [List.cons_append, List.cons.injEq] at hl
                have := hpre p (by simp [hl.1])
                rw [← hl.1] at this
                rw [this] at hx; cases hx
      | none =>
          rw [ih]
          constructor
          · rintro ⟨pre, a, post, hl, hpre, ha⟩
            refine ⟨x :: pre, a, post, by simp [hl], ?_, ha⟩
            intro y hy
            rcases List.mem_cons.mp hy with h | h
            · rw [h]; exact hx
            · exact hpre y h
          · rintro ⟨pre, a, post, hl, hpre, ha⟩
            cases pre with
            | nil =>
                simp only [List.nil_append, List.cons.injEq] at hl
                rw [hl.1] at hx; rw [hx] at ha; cases ha
            | cons p ps =>
                simp only [List.cons_append, List.cons.injEq] at hl
                exact ⟨ps, a, post, hl.2, fun y hy => hpre y (by simp [hy]),
                  ha⟩

theorem findSome?_eq_none_split {α β : Type} {f : α → Option β}
    {l : List α} :
    l.findSome? f = none ↔ ∀ x ∈ l, f x = none := by
  induction l with
  | nil => simp
  | cons x xs ih =>
      simp only [List.findSome?_cons]
      cases hx : f x with
      | some c => simp [hx]
      | none => simp [hx, ih]

theorem downcastRef_eq_some {U : Ty} {n m : ErrNode} :
    downcastRef U n = some m ↔ n.dynTy = U ∧ m = n := by
  unfold downcastRef
  by_cases h : n.dynTy = U <;> simp [h, eq_comm]

theorem downcastRef_eq_none {U : Ty} {n : ErrNode} :
    downcastRef U n = none ↔ n.dynTy ≠ U := by
  unfold downcastRef
  by_cases h : n.dynTy = U <;> simp [h]

theorem dynTy_err_kindOf {U : Ty} {n : ErrNode} (h : n.dynTy = .err U) :
    ∃ k, n.kindOf = some k ∧ k.ty = U := by
  cases n with
  | chain occ k c =>
      simp only [ErrNode.dynTy, Ty.err.injEq] at h
      exact ⟨k, rfl, h⟩
  | foreign t d b s => simp [ErrNode.dynTy] at h

theorem attachAll_cons (leaf : ErrNode) (loc : String) (k : Kind)
    (ctxs : List (String × Kind)) :
    attachAll leaf ((loc, k) :: ctxs) =
      .chain (some loc) k (some (attachAll leaf ctxs)) := rfl

theorem attachAll_iterList {leaf : ErrNode} (h : leaf.source = none)
    (ctxs : List (String × Kind)) :
    (attachAll leaf ctxs).iterList = attachLinks leaf ctxs ++ [leaf] := by
  induction ctxs with
  | nil => simpa [attachAll, attachLinks] using iterList_source_none h
  | cons p ctxs ih =>
      obtain ⟨loc, k⟩ := p
      rw [attachLinks, attachAll_cons]
      simp [ErrNode.iterList, ih]

theorem find_cause_eq_some_iff {e : ErrorS} {T : Ty} {n : ErrNode} :
    e.find_cause T = some n ↔
      ∃ pre post, e.iter = pre ++ n :: post ∧ n.dynTy = T ∧
        ∀ m ∈ pre, m.dynTy ≠ T := by
  unfold ErrorS.find_cause
  rw [findSome?_eq_some_split]
  constructor
  · rintro ⟨pre, a, post, hl, hpre, ha⟩
    obtain ⟨hty, hn⟩ := downcastRef_eq_some.mp ha
    subst hn
    exact ⟨pre, post, hl, hty, fun m hm => downcastRef_eq_none.mp (hpre m hm)⟩
  · rintro ⟨pre, post, hl, hty, hpre⟩
    exact ⟨pre, n, post, hl, fun x hx => downcastRef_eq_none.mpr (hpre x hx),
      downcastRef_eq_some.mpr ⟨hty, rfl⟩⟩

theorem err_ne_self : ∀ U : Ty, Ty.err U ≠ U := by
  intro U
  induction U with
  | base n => intro h; cases h
  | err t ih => intro h; exact ih (Ty.err.inj h)

theorem kindOrCauseAt_eq_some {U : Ty} {n : ErrNode} {r : Kind ⊕ ErrNode} :
    kindOrCauseAt U n = some r ↔
      ((n.dynTy = Ty.err U ∧ ∃ k, n.kindOf = some k ∧ r = Sum.inl k) ∨
       (n.dynTy ≠ Ty.err U ∧ n.dynTy = U ∧ r = Sum.inr n)) := by
  unfold kindOrCauseAt downcastRef
  by_cases h1 : n.dynTy = Ty.err U
  · obtain ⟨k, hk, -⟩ := dynTy_err_kindOf h1
    simp [h1, hk, eq_comm]
  · by_cases h2 : n.dynTy = U <;>
      simp [h1, h2, Ne.symm (err_ne_self U), eq_comm]

theorem kindOrCauseAt_eq_none {U : Ty} {n : ErrNode} :
    kindOrCauseAt U n = none ↔ n.dynTy ≠ Ty.err U ∧ n.dynTy ≠ U := by
  unfold kindOrCauseAt downcastRef
  by_cases h1 : n.dynTy = Ty.err U
  · obtain ⟨k, hk, -⟩ := dynTy_err_kindOf h1
    simp [h1, hk]
  · by_cases h2 : n.dynTy = U <;> simp [h1, h2]

theorem attachLinks_length (leaf : ErrNode) (ctxs : List (String × Kind)) :
    (attachLinks leaf ctxs).length = ctxs.length := by
  induction ctxs with
  | nil => rfl
  | cons p ctxs ih => obtain ⟨loc, k⟩ := p; simp [attachLinks, ih]

/-! The claims. -/

/-- C1: non-alternate Debug of a link prints, in order, the occurrence tag
followed by `": "` if present, then the kind via Display if its type is
exactly `String` or `&str` and via Debug otherwise, then, if a cause exists,
`"\nCaused by:\n"` followed by the Debug rendering of the cause, recursively,
so the chain is printed top-to-bottom outermost first, terminating at the
native Debug rendering of a foreign leaf error. -/
theorem debug_nonalternate_chain_format :
    (∀ (occ : Option String) (k : Kind) (c : Option ErrNode),
      ErrNode.rustDebug (.chain occ k c) =
        (match occ with
          | some o => o ++ ": "
          | none => "") ++
        (if k.ty = stringTy ∨ k.ty = strTy then k.display else k.debugStr) ++
        (match c with
          | some e => "\nCaused by:\n" ++ ErrNode.rustDebug e
          | none => "")) ∧
    (∀ (t : Nat) (d b : String) (s : Option ErrNode),
      ErrNode.rustDebug (.foreign t d b s) = b) ∧
    ErrNode.rustDebug
        (.chain (some "loc-outer") ⟨stringTy, "read the config file", "dbg1"⟩
          (some (.chain (some "loc-inner")
            ⟨stringTy, "Reading file", "dbg2"⟩ (some leafN)))) =
      "loc-outer: read the config file\nCaused by:\n" ++
        "loc-inner: Reading file\nCaused by:\nKind(NotFound)" := by
  exact ⟨fun occ k c => by cases occ <;> cases c <;> simp [ErrNode.rustDebug],
    fun t d b s => by cases s <;> simp [ErrNode.rustDebug], by decide⟩

/-- C8: non-alternate Display of a link prints exactly the Display rendering
of the kind, regardless of any cause; alternate Display additionally
appends, exactly when a cause exists, `"\nCaused by:\n  "` followed by the
alternate rendering of the cause, recursively. -/
theorem display_terse_and_alternate :
    (∀ (occ : Option String) (k : Kind) (c : Option ErrNode),
      ErrNode.rustDisplay false (.chain occ k c) = k.display) ∧
    (∀ (occ : Option String) (k : Kind),
      ErrNode.rustDisplay true (.chain occ k none) = k.display) ∧
    (∀ (occ : Option String) (k : Kind) (e : ErrNode),
      ErrNode.rustDisplay true (.chain occ k (some e)) =
        k.display ++ ("\nCaused by:\n  " ++ ErrNode.rustDisplay true e)) ∧
    ErrNode.rustDisplay false
        (.chain none ⟨tyA, "func1 error", "dbg"⟩ (some midN)) =
      "func1 error" := by
  refine ⟨fun occ k c => ?_, fun occ k => ?_, fun occ k e => rfl, ?_⟩
  · cases c <;> simp [ErrNode.rustDisplay]
  · simp [ErrNode.rustDisplay]
  · decide

/-- C9: alternate Debug of a link renders a labelled `debug_struct` record
with exactly the fields `occurrence`, `kind` and `source`, in that order;
the impl does not itself walk the chain: the `source` field is produced by
one delegation to the Debug rendering of the direct cause. -/
theorem debug_alternate_record :
    ∀ (occ : Option String) (k : Kind) (c : Option ErrNode),
      (ErrNode.chain occ k c).debugAltRec =
        some ⟨"Error<" ++ k.ty.typeName ++ ">",
          [("occurrence", optionDebug stringDebug occ),
           ("kind", k.debugStr),
           ("source", optionDebug ErrNode.rustDebugAlt c)]⟩ ∧
      ErrNode.rustDebugAlt (.chain occ k c) =
        renderRecord
          ⟨"Error<" ++ k.ty.typeName ++ ">",
            [("occurrence", optionDebug stringDebug occ),
             ("kind", k.debugStr),
             ("source", optionDebug ErrNode.rustDebugAlt c)]⟩ := by
  intro occ k c
  refine ⟨rfl, ?_⟩
  cases c with
  | none => rfl
  | some e => rfl

/-- C5: `context(kind)` on a `Result` is total: on success it passes the
value through unchanged, and on failure with error `e` it returns a freshly
constructed link whose kind is the supplied value, whose cause is the boxed
original error, and whose occurrence is the captured call-site location;
`map_context` behaves the same except the kind is computed by applying the
supplied function to the error before the error is stored as the cause. -/
theorem context_total_preserves_cause :
    ∀ (O E : Type) (into : E → ErrNode) (loc : String) (k : Kind)
      (op : E → Kind),
      (∀ v : O, context into loc k (Except.ok v) = Except.ok v) ∧
      (∀ e : E, @context O E into loc k (Except.error e) =
        Except.error (ErrorS.new k (some (into e)) (some loc))) ∧
      (∀ v : O, map_context into loc op (Except.ok v) = Except.ok v) ∧
      (∀ e : E, @map_context O E into loc op (Except.error e) =
        Except.error (ErrorS.new (op e) (some (into e)) (some loc))) :=
  fun _ _ _ _ _ _ =>
    ⟨fun _ => rfl, fun _ => rfl, fun _ => rfl, fun _ => rfl⟩

/-- C4: `is_chain::<T>()` on a link of kind type `U` holds exactly when `T`
and `U` are the same type, and `downcast_chain_ref::<T>()` returns the same
link with its kind preserved exactly when `is_chain::<T>()` holds, `None`
otherwise. -/
theorem is_chain_exact_type :
    ∀ (e : ErrorS) (T : Ty),
      (e.is_chain T = true ↔ T = e.kind.ty) ∧
      e.downcast_chain_ref T = (if T = e.kind.ty then some e else none) := by
  intro e T
  constructor
  · simp [ErrorS.is_chain]
  · by_cases h : T = e.kind.ty <;>
      simp [ErrorS.downcast_chain_ref, ErrorS.is_chain, h]

/-- Witness for C4 at concrete inputs: the sample outer link has kind type
`A`, so `is_chain` holds at `A` and the downcast at `B` is `None`. -/
theorem is_chain_exact_type_witness :
    outerS.is_chain tyA = true ∧ outerS.downcast_chain_ref tyB = none := by
  constructor
  · exact (is_chain_exact_type outerS tyA).1.mpr rfl
  · rw [(is_chain_exact_type outerS tyB).2, if_neg (by decide)]

/-- C2: `find_chain_cause::<U>` scans the chain starting at the link itself,
in outermost-to-innermost order, and returns the first link whose kind type
is exactly `U`; in particular on the sample chain
`outer(A) -> mid(B) -> inner(A)` it returns `outer` itself, not `inner`. -/
theorem find_chain_cause_first_match :
    (∀ (e : ErrorS) (U : Ty) (n : ErrNode),
      e.find_chain_cause U = some n ↔
        ∃ pre post, e.iter = pre ++ n :: post ∧ n.dynTy = Ty.err U ∧
          ∀ m ∈ pre, m.dynTy ≠ Ty.err U) ∧
    (∀ e : ErrorS, e.iter.head? = some e.toNode) ∧
    (∀ e : ErrorS, e.find_chain_cause e.kind.ty = some e.toNode) ∧
    (outerS.find_chain_cause tyA = some outerS.toNode ∧
      outerS.toNode ≠ innerN) := by
  refine ⟨fun _ _ _ => find_cause_eq_some_iff, fun e => iterList_head _,
    fun e => ?_, ?_, ?_⟩
  · obtain ⟨occ, k, c⟩ := e
    show ((ErrNode.chain occ k c).iterList.findSome? _) = _
    cases c with
    | none =>
        simp [ErrNode.iterList, downcastRef, ErrNode.dynTy, ErrorS.toNode]
    | some cc =>
        simp [ErrNode.iterList, downcastRef, ErrNode.dynTy, ErrorS.toNode]
  · rfl
  · simp [ErrorS.toNode, outerS, innerN]

/-- Witness for C2: the characterization applied at the sample chain, the
empty prefix and the outer link, yielding the concrete first-match fact. -/
theorem find_chain_cause_first_match_witness :
    outerS.find_chain_cause tyA = some outerS.toNode :=
  (find_chain_cause_first_match.1 outerS tyA outerS.toNode).mpr
    ⟨[], [midN, innerN], rfl, rfl, by simp⟩

/-- C3: `find_kind_or_cause::<U>` performs a single outermost-to-innermost
pass; at each node the wrapper test (is the node an `Error<U>` link, in
which case its unwrapped kind is returned) is tried before the raw test (is
the node itself a raw `U`, in which case the node is returned), and the
first node satisfying either test wins. -/
theorem find_kind_or_cause_single_pass :
    ∀ (e : ErrorS) (U : Ty) (r : Kind ⊕ ErrNode),
      e.find_kind_or_cause U = some r ↔
        ∃ pre n post, e.iter = pre ++ n :: post ∧
          (∀ m ∈ pre, m.dynTy ≠ Ty.err U ∧ m.dynTy ≠ U) ∧
          ((n.dynTy = Ty.err U ∧ ∃ k, n.kindOf = some k ∧ r = Sum.inl k) ∨
           (n.dynTy ≠ Ty.err U ∧ n.dynTy = U ∧ r = Sum.inr n)) := by
  intro e U r
  unfold ErrorS.find_kind_or_cause
  rw [findSome?_eq_some_split]
  constructor
  · rintro ⟨pre, a, post, hl, hpre, ha⟩
    exact ⟨pre, a, post, hl,
      fun m hm => kindOrCauseAt_eq_none.mp (hpre m hm),
      kindOrCauseAt_eq_some.mp ha⟩
  · rintro ⟨pre, a, post, hl, hpre, ha⟩
    exact ⟨pre, a, post, hl,
      fun m hm => kindOrCauseAt_eq_none.mpr (hpre m hm),
      kindOrCauseAt_eq_some.mpr ha⟩

/-- Witness for C3: on the sample chain, looking for kind type `B` skips the
outer link (kind type `A`) and hits the middle wrapper link, returning its
unwrapped kind. -/
theorem find_kind_or_cause_single_pass_witness :
    outerS.find_kind_or_cause tyB = some (Sum.inl kindB) :=
  (find_kind_or_cause_single_pass outerS tyB (Sum.inl kindB)).mpr
    ⟨[outerS.toNode], midN, [innerN], rfl,
      by
        intro m hm
        simp only [List.mem_singleton] at hm
        subst hm
        exact ⟨by decide, by decide⟩,
      Or.inl ⟨rfl, kindB, rfl, rfl⟩⟩

/-- C10: `find_chain_cause::<U>` returns exactly the same result as
`find_cause::<Error<U>>`: both scan the same iteration sequence starting at
the link itself and succeed on the first element whose dynamic type is
`Error<U>`, returning that link. -/
theorem find_chain_cause_eq_find_cause :
    ∀ (e : ErrorS) (U : Ty),
      e.find_chain_cause U = e.find_cause (Ty.err U) ∧
      ∀ n : ErrNode,
        e.find_cause (Ty.err U) = some n ↔
          ∃ pre post, e.iter = pre ++ n :: post ∧ n.dynTy = Ty.err U ∧
            ∀ m ∈ pre, m.dynTy ≠ Ty.err U :=
  fun _ _ => ⟨rfl, fun _ => find_cause_eq_some_iff⟩

/-- Witness for C10: the equivalence applied at the sample chain and kind
type `B`, where both lookups find the middle link. -/
theorem find_chain_cause_eq_find_cause_witness :
    outerS.find_chain_cause tyB = outerS.find_cause (Ty.err tyB) ∧
      outerS.find_cause (Ty.err tyB) = some midN :=
  ⟨(find_chain_cause_eq_find_cause outerS tyB).1,
    ((find_chain_cause_eq_find_cause outerS tyB).2 midN).mpr
      ⟨[outerS.toNode], [innerN], rfl, rfl,
        by
          intro m hm
          simp only [List.mem_singleton] at hm
          subst hm
          decide⟩⟩

/-- C6: for a chain built by `N` successive `context` attachments over a
leaf error with no further source, iteration from the outermost link
terminates and yields exactly `N + 1` elements: each constructed link in
outermost-to-innermost order, then the leaf, whose lack of a source ends the
chain; the list is produced by a total function, with no cycle detection. -/
theorem iterate_yields_n_plus_one :
    ∀ (leaf : ErrNode) (ctxs : List (String × Kind)), leaf.source = none →
      (attachAll leaf ctxs).iterList = attachLinks leaf ctxs ++ [leaf] ∧
      (attachAll leaf ctxs).iterList.length = ctxs.length + 1 ∧
      ∃ last, (attachAll leaf ctxs).iterList.getLast? = some last ∧
        last.source = none := by
  intro leaf ctxs h
  refine ⟨attachAll_iterList h ctxs, ?_, leaf, ?_, h⟩
  · rw [attachAll_iterList h ctxs]
    simp [attachLinks_length]
  · rw [attachAll_iterList h ctxs]
    exact List.getLast?_concat _

/-- Witness for C6 on a concrete two-attachment chain over the sample
foreign leaf. -/
theorem iterate_yields_n_plus_one_witness :
    (attachAll leafN [("loc1", kindA), ("loc2", kindB)]).iterList.length
      = 3 := by
  have h := iterate_yields_n_plus_one leafN [("loc1", kindA), ("loc2", kindB)]
    rfl
  exact h.2.1

/-- C7: `root_cause()` is the last element of the iteration sequence
starting at the link itself; since the link is always yielded first, it is
`Some` for every link, and for a chain over a foreign leaf error it returns
exactly that original leaf. -/
theorem root_cause_is_last :
    (∀ e : ErrorS, e.root_cause = e.iter.getLast? ∧
      ∃ r, e.root_cause = some r) ∧
    (∀ (leaf : ErrNode) (ctxs : List (String × Kind)) (occ : Option String)
      (k : Kind), leaf.source = none →
        (ErrorS.new k (some (attachAll leaf ctxs)) occ).root_cause
          = some leaf) := by
  constructor
  · intro e
    refine ⟨rfl, ?_⟩
    rw [← Option.isSome_iff_exists]
    show (e.iter.getLast?).isSome = true
    rw [List.getLast?_isSome]
    exact iterList_ne_nil _
  · intro leaf ctxs occ k h
    show ((ErrorS.new k (some (attachAll leaf ctxs)) occ).toNode.iterList).getLast?
      = some leaf
    have h2 : (ErrorS.new k (some (attachAll leaf ctxs)) occ).toNode
        = .chain occ k (some (attachAll leaf ctxs)) := rfl
    have h3 : (ErrNode.chain occ k (some (attachAll leaf ctxs))).iterList
        = ErrNode.chain occ k (some (attachAll leaf ctxs))
          :: (attachAll leaf ctxs).iterList :=
      iterList_source_some rfl
    rw [h2, h3, attachAll_iterList h ctxs, ← List.cons_append]
    exact List.getLast?_concat _

/-- Witness for C7: the root cause of a concrete one-attachment chain over
the sample foreign leaf is that leaf. -/
theorem root_cause_is_last_witness :
    (ErrorS.new kindA (some (attachAll leafN [("loc1", kindB)]))
      (some "loc0")).root_cause = some leafN :=
  root_cause_is_last.2 leafN [("loc1", kindB)] (some "loc0") kindA rfl

end Chainerror
